import Mathlib

/-!
Verification of the rank-resolution engine of `src/app.py` (Naver map rank
search tool).  The core functions embedded here are `build_url`,
`search_single_business` and `search_multiple_businesses`; browser effects
(Selenium driver, waits, page snapshots) are modelled by a `Session` record
describing the observable outcomes of those effects.
-/

set_option linter.unusedVariables false

/-- `BASE_URL` constant of `app.py`. -/
def BASE_URL : String := "https://map.naver.com/p/search/"

/-- `build_url(keyword)`: concatenates the base path with the raw query text. -/
def build_url (keyword : String) : String := BASE_URL ++ keyword

/-- One `li` element of the parsed result feed: `isAd` is the presence of the
ad-marker sub-element `.gU6bV._DHlh`; `nameText` is the text content of the
display-name sub-element `.place_bluelink.tWIhh > span.O_Uah` when that
element is present (`none` when absent). -/
structure Entry where
  isAd : Bool
  nameText : Option String
deriving DecidableEq, Repr

/-- Python `str.strip()`: removes leading and trailing whitespace. -/
def pyStrip (s : String) : String :=
  String.mk (((s.data.dropWhile Char.isWhitespace).reverse.dropWhile Char.isWhitespace).reverse)

/-- The name comparison of lines 126-129: the entry has a name element and its
stripped text (`.text.strip()`, modelled by `pyStrip`) equals the target
`shop_name`. -/
def nameTextMatches (e : Entry) (shop_name : String) : Bool :=
  match e.nameText with
  | some t => pyStrip t == shop_name
  | none => false

/-- An entry is returned as the match iff it is not an ad (line 123 `continue`
is not taken) and its name text equals the target. -/
def entryMatches (e : Entry) (shop_name : String) : Bool :=
  !e.isAd && nameTextMatches e shop_name

/-- The inner `for` loop over one cycle's parsed entries (lines 118-130):
`rank` is incremented for every entry (ads included); the first entry with
`entryMatches` returns the current `rank`.  Result: (`some` returned rank or
`none`, final value of the `rank` counter). -/
def scanCycle (shop_name : String) : List Entry → Nat → Option Nat × Nat
  | [], rank => (none, rank)
  | e :: es, rank =>
    if entryMatches e shop_name then (some (rank + 1), rank + 1)
    else scanCycle shop_name es (rank + 1)

/-- The `while` loop (lines 111-134) over the successive snapshots, carrying
the `rank` counter across cycles exactly as the source does (the counter is
never reset between cycles).  Result: (returned value, number of loop
iterations executed). -/
def runCycles (shop_name : String) : List (List Entry) → Nat → Int × Nat
  | [], _ => (-1, 0)
  | cycle :: rest, rank =>
    match scanCycle shop_name cycle rank with
    | (some r, _) => ((r : Int), 1)
    | (none, rank') =>
      let t := runCycles shop_name rest rank'
      (t.1, t.2 + 1)

/-- Observable behaviour of the Selenium driver during one resolution attempt:
whether the two `WebDriverWait`s succeed, whether any other exception is
raised (caught by the outer `except` of line 138), and the feed parsed from
`driver.page_source` at scroll cycle `c` (1-based, `c` = value of
`scroll_count` during that iteration). -/
structure Session where
  unexpectedError : Bool
  iframeLoads : Bool
  containerLoads : Bool
  snapshot : Nat → List Entry

/-- Lines 89-136: navigation waits, then the scroll/parse loop.  Result:
(returned value, number of loop iterations executed). -/
def scrollSearch (sess : Session) (shop_name : String) (max_scrolls : Nat) : Int × Nat :=
  if !sess.iframeLoads then (-1, 0)
  else if !sess.containerLoads then (-1, 0)
  else runCycles shop_name ((List.range max_scrolls).map fun k => sess.snapshot (k + 1)) 0

/-- `search_single_business(driver, keyword, shop_name, max_scrolls=50)`:
returns the found rank, or -1 on exhausted budget, navigation timeout, or any
exception (outer `try`/`except` returns -1). -/
def search_single_business (sess : Session) (keyword shop_name : String)
    (max_scrolls : Nat := 50) : Int :=
  if sess.unexpectedError then -1
  else (scrollSearch sess shop_name max_scrolls).1

/-- Number of `while`-loop iterations executed by a (non-raising) resolution
attempt. -/
def cyclesExecuted (sess : Session) (shop_name : String) (max_scrolls : Nat) : Nat :=
  (scrollSearch sess shop_name max_scrolls).2

/-- Value of the `rank` counter at the start of cycle `c + 1`, assuming no
match was returned in cycles `1..c` (the counter is threaded through
`scanCycle`, never reset). -/
def rankAtCycleStart (sess : Session) (shop_name : String) : Nat → Nat
  | 0 => 0
  | c + 1 => (scanCycle shop_name (sess.snapshot (c + 1)) (rankAtCycleStart sess shop_name c)).2

/-- The value of `rank` at which the entry at 0-based position `j` of the
cycle-`c` snapshot is processed (its assigned ordinal), in a run where no
match occurred before cycle `c` (`c` is 1-based). -/
def assignedOrdinal (sess : Session) (shop_name : String) (c j : Nat) : Nat :=
  rankAtCycleStart sess shop_name (c - 1) + j + 1

/-- One row of the result table built at lines 166-171: the rank cell holds
the integer when `rank > 0` and the string "찾을 수 없음" otherwise (modelled
as `none`); `found` is the boolean `rank > 0`. -/
structure ResultRow where
  keyword : String
  shop_name : String
  rankCell : Option Int
  found : Bool
deriving DecidableEq, Repr

/-- Builds the result mapping of lines 166-171 from the returned rank. -/
def mkResultRow (keyword shop_name : String) (rank : Int) : ResultRow :=
  { keyword := keyword
    shop_name := shop_name
    rankCell := if rank > 0 then some rank else none
    found := decide (rank > 0) }

/-- Observable events of one batch run: a progress-callback report with its
fraction, the start of pair `i`'s resolution, and the `driver.quit()` call. -/
inductive Event where
  | progress (frac : ℚ)
  | resolve (idx : Nat)
  | dispose
deriving DecidableEq, Repr

/-- Recognises the `driver.quit()` event. -/
def isDispose : Event → Bool
  | Event.dispose => true
  | _ => false

/-- Extracts the fraction of a progress-callback event. -/
def progressValue : Event → Option ℚ
  | Event.progress q => some q
  | _ => none

/-- The `for` loop of lines 160-174 over `enumerate(zip(keywords, shop_names))`,
with `i` the running index.  `abortAt = some a` injects an exception escaping
the loop body at the top of iteration `a` (before that iteration's progress
report); `abortAt = none` is the normal run in which no exception escapes an
iteration (`search_single_business` itself catches every exception).  Result:
(events emitted by the loop, rows accumulated or the escaped exception). -/
def batchLoop (driver : Nat → Session) (abortAt : Option Nat) (total : Nat) :
    Nat → List (String × String) → List Event × Except Unit (List ResultRow)
  | _, [] => ([], Except.ok [])
  | i, (keyword, shop_name) :: rest =>
    if abortAt = some i then ([], Except.error ())
    else
      let rank := search_single_business (driver i) keyword shop_name
      let t := batchLoop driver abortAt total (i + 1) rest
      (Event.progress ((i : ℚ) / (total : ℚ)) :: Event.resolve i :: t.1,
       t.2.map fun rows => mkResultRow keyword shop_name rank :: rows)

/-- `search_multiple_businesses(keywords, shop_names, progress_bar)`
(lines 143-181): runs the pair loop inside `try`, then the `finally` block
always runs `driver.quit()` followed by the final `progress(1.0)` report.
`driver i` is the session behaviour observed while resolving pair `i`.
Result: (full event trace, rows or the exception that escaped the loop). -/
def search_multiple_businesses (driver : Nat → Session) (abortAt : Option Nat)
    (keywords shop_names : List String) : List Event × Except Unit (List ResultRow) :=
  let t := batchLoop driver abortAt keywords.length 0 (keywords.zip shop_names)
  (t.1 ++ [Event.dispose, Event.progress 1], t.2)

/-- Number of loop iterations whose body runs to completion, starting the
enumeration at index `i` (all iterations when no exception is injected). -/
def procLen (abortAt : Option Nat) : Nat → List (String × String) → Nat
  | _, [] => 0
  | i, _ :: rest => if abortAt = some i then 0 else procLen abortAt (i + 1) rest + 1

/-- The rows accumulated by a completed pair loop, starting at index `i`. -/
def rowsFrom (driver : Nat → Session) : Nat → List (String × String) → List ResultRow
  | _, [] => []
  | i, (keyword, shop_name) :: rest =>
    mkResultRow keyword shop_name (search_single_business (driver i) keyword shop_name) ::
      rowsFrom driver (i + 1) rest

/-! ### Concrete sessions used as test inputs -/

/-- Organic entry named "X". -/
def entryX : Entry := ⟨false, some "X"⟩

/-- Organic entry named "A". -/
def entryA : Entry := ⟨false, some "A"⟩

/-- Organic entry named "B". -/
def entryB : Entry := ⟨false, some "B"⟩

/-- Sponsored entry whose name text is "A". -/
def entryAdA : Entry := ⟨true, some "A"⟩

/-- A growing feed: the first snapshot shows only `entryX`; from the second
scroll cycle on, the feed shows `entryX` followed by `entryA` (the feed grew
by appending one entry). -/
def sessGrow : Session :=
  ⟨false, true, true, fun c => if c = 1 then [entryX] else [entryX, entryA]⟩

/-- A static three-entry feed whose first entry is sponsored with name text
"A", followed by organic "A" and "B". -/
def sessAd : Session :=
  ⟨false, true, true, fun _ => [entryAdA, entryA, entryB]⟩

/-- A static two-entry feed (scrolling never adds entries). -/
def sessStatic : Session :=
  ⟨false, true, true, fun _ => [entryA, entryB]⟩

/-- A session raising an unexpected exception during resolution. -/
def sessErr : Session := ⟨true, true, true, fun _ => []⟩

/-- A session whose result-container wait times out. -/
def sessNavFail : Session := ⟨false, true, false, fun _ => []⟩

/-- A static feed consisting of a single sponsored entry named "A". -/
def sessAllAds : Session := ⟨false, true, true, fun _ => [entryAdA]⟩

/-! ### Lemmas about one resolution attempt -/

theorem scanCycle_no_match (shop_name : String) (es : List Entry) :
    ∀ r : Nat, (∀ e ∈ es, entryMatches e shop_name = false) →
      scanCycle shop_name es r = (none, r + es.length) := by
  induction es with
  | nil => intro r _; simp [scanCycle]
  | cons e es ih =>
    intro r h
    have he : entryMatches e shop_name = false := h e (by simp)
    rw [show scanCycle shop_name (e :: es) r =
        (if entryMatches e shop_name then (some (r + 1), r + 1)
         else scanCycle shop_name es (r + 1)) from rfl]
    rw [he]
    simp only [Bool.false_eq_true, if_false]
    rw [ih (r + 1) (fun x hx => h x (by simp [hx]))]
    simp only [List.length_cons, Prod.mk.injEq, true_and]
    omega

theorem runCycles_no_match (shop_name : String) (cycles : List (List Entry)) :
    ∀ r : Nat, (∀ cyc ∈ cycles, ∀ e ∈ cyc, entryMatches e shop_name = false) →
      runCycles shop_name cycles r = (-1, cycles.length) := by
  induction cycles with
  | nil => intro r _; simp [runCycles]
  | cons c cs ih =>
    intro r h
    simp only [runCycles]
    rw [scanCycle_no_match shop_name c r (h c (by simp))]
    simp only []
    rw [ih (r + c.length) (fun cyc hc e he => h cyc (by simp [hc]) e he)]
    simp

theorem scanCycle_first_match (shop_name : String) (es : List Entry) :
    ∀ (j r : Nat) (hj : j < es.length),
      (∀ i (hi : i < es.length), i < j → entryMatches es[i] shop_name = false) →
      entryMatches es[j] shop_name = true →
      scanCycle shop_name es r = (some (r + j + 1), r + j + 1) := by
  induction es with
  | nil => intro j r hj; exact absurd hj (by simp)
  | cons e es ih =>
    intro j r hj hfirst hmatch
    cases j with
    | zero =>
      simp only [List.getElem_cons_zero] at hmatch
      simp [scanCycle, hmatch]
    | succ j =>
      have he : entryMatches e shop_name = false := by
        have := hfirst 0 (by simp) (by omega)
        simpa using this
      rw [show scanCycle shop_name (e :: es) r =
          (if entryMatches e shop_name then (some (r + 1), r + 1)
           else scanCycle shop_name es (r + 1)) from rfl]
      rw [he]
      simp only [Bool.false_eq_true, if_false]
      have hj' : j < es.length := by simpa using hj
      rw [ih j (r + 1) hj'
          (fun i hi hij => by
            have := hfirst (i + 1) (by simpa using Nat.succ_lt_succ hi) (by omega)
            simpa using this)
          (by simpa using hmatch)]
      simp only [Prod.mk.injEq, Option.some.injEq]
      omega

theorem runCycles_found (shop_name : String) (pre : List (List Entry)) :
    ∀ (cyc : List Entry) (post : List (List Entry)) (r j : Nat),
      (∀ c ∈ pre, ∀ e ∈ c, entryMatches e shop_name = false) →
      ∀ (hj : j < cyc.length),
      (∀ i (hi : i < cyc.length), i < j → entryMatches cyc[i] shop_name = false) →
      entryMatches cyc[j] shop_name = true →
      runCycles shop_name (pre ++ cyc :: post) r =
        (((r + (pre.map List.length).sum + j + 1 : Nat) : Int), pre.length + 1) := by
  induction pre with
  | nil =>
    intro cyc post r j _ hj hfirst hmatch
    simp only [List.nil_append, runCycles]
    rw [scanCycle_first_match shop_name cyc j r hj hfirst hmatch]
    simp
  | cons c pre ih =>
    intro cyc post r j hpre hj hfirst hmatch
    simp only [List.cons_append, runCycles]
    rw [scanCycle_no_match shop_name c r (hpre c (by simp))]
    simp only [List.append_eq]
    rw [ih cyc post (r + c.length) j (fun x hx e he => hpre x (by simp [hx]) e he) hj hfirst hmatch]
    simp only [List.map_cons, List.sum_cons, List.length_cons, Prod.mk.injEq]
    exact ⟨by omega, trivial⟩

theorem entryMatches_of_organic (shop_name : String) (es : List Entry)
    (h : ∀ e ∈ es, e.isAd = false → nameTextMatches e shop_name = false) :
    ∀ e ∈ es, entryMatches e shop_name = false := by
  intro e he
  unfold entryMatches
  cases had : e.isAd with
  | true => simp
  | false => simp [h e he had]

theorem rankAtCycleStart_no_match (sess : Session) (shop_name : String) :
    ∀ c : Nat, (∀ k, 1 ≤ k → k ≤ c → ∀ e ∈ sess.snapshot k, entryMatches e shop_name = false) →
      rankAtCycleStart sess shop_name c =
        ((List.range c).map fun k => (sess.snapshot (k + 1)).length).sum := by
  intro c
  induction c with
  | zero => intro _; simp [rankAtCycleStart]
  | succ c ih =>
    intro h
    simp only [rankAtCycleStart]
    rw [scanCycle_no_match shop_name _ _ (h (c + 1) (by omega) (by omega))]
    simp only []
    rw [ih (fun k hk1 hk2 => h k hk1 (by omega))]
    rw [List.range_succ]
    simp [List.sum_append]

theorem search_single_business_no_match (sess : Session) (keyword shop_name : String)
    (max_scrolls : Nat)
    (herr : sess.unexpectedError = false) (hif : sess.iframeLoads = true)
    (hcl : sess.containerLoads = true)
    (hnm : ∀ c, ∀ e ∈ sess.snapshot c, entryMatches e shop_name = false) :
    search_single_business sess keyword shop_name max_scrolls = -1 ∧
      cyclesExecuted sess shop_name max_scrolls = max_scrolls := by
  unfold search_single_business cyclesExecuted scrollSearch
  rw [herr, hif, hcl]
  simp only [Bool.not_true, Bool.false_eq_true, if_false]
  rw [runCycles_no_match shop_name _ 0
      (fun cyc hc e he => by
        obtain ⟨k, _, rfl⟩ := List.mem_map.mp hc
        exact hnm (k + 1) e he)]
  simp

theorem search_single_business_found_at (sess : Session) (keyword shop_name : String)
    (max_scrolls c j : Nat)
    (herr : sess.unexpectedError = false) (hif : sess.iframeLoads = true)
    (hcl : sess.containerLoads = true)
    (hc1 : 1 ≤ c) (hcm : c ≤ max_scrolls)
    (hpre : ∀ k, 1 ≤ k → k < c → ∀ e ∈ sess.snapshot k, entryMatches e shop_name = false)
    (hj : j < (sess.snapshot c).length)
    (hfirst : ∀ i (hi : i < (sess.snapshot c).length), i < j →
      entryMatches (sess.snapshot c)[i] shop_name = false)
    (hmatch : entryMatches (sess.snapshot c)[j] shop_name = true) :
    search_single_business sess keyword shop_name max_scrolls =
      ((assignedOrdinal sess shop_name c j : Nat) : Int)
    ∧ cyclesExecuted sess shop_name max_scrolls = c := by
  have hsplit : (List.range max_scrolls).map (fun k => sess.snapshot (k + 1)) =
      ((List.range (c - 1)).map fun k => sess.snapshot (k + 1)) ++
        sess.snapshot c ::
          ((List.range' c (max_scrolls - c)).map fun k => sess.snapshot (k + 1)) := by
    have hm : max_scrolls - (c - 1) + (c - 1) = max_scrolls := by omega
    have h1 := List.range'_append_1 0 (c - 1) (max_scrolls - (c - 1))
    rw [Nat.zero_add, hm] at h1
    have h2 : max_scrolls - (c - 1) = (max_scrolls - c) + 1 := by omega
    have h3 : c - 1 + 1 = c := by omega
    rw [List.range_eq_range', ← h1, h2, List.range'_succ, h3, List.map_append, List.map_cons]
    simp [h3, List.range_eq_range']
  unfold search_single_business cyclesExecuted scrollSearch
  rw [herr, hif, hcl]
  simp only [Bool.not_true, Bool.false_eq_true, if_false]
  rw [hsplit]
  rw [runCycles_found shop_name _ _ _ 0 j
      (fun cyc hc e he => by
        obtain ⟨k, hk, rfl⟩ := List.mem_map.mp hc
        have hk' : k < c - 1 := List.mem_range.mp hk
        exact hpre (k + 1) (by omega) (by omega) e he)
      hj hfirst hmatch]
  have hlen : ((List.range (c - 1)).map fun k => sess.snapshot (k + 1)).length = c - 1 := by
    simp
  have hsum : (((List.range (c - 1)).map fun k => sess.snapshot (k + 1)).map List.length).sum =
      rankAtCycleStart sess shop_name (c - 1) := by
    rw [rankAtCycleStart_no_match sess shop_name (c - 1)
        (fun k hk1 hk2 => hpre k hk1 (by omega))]
    rw [List.map_map]
    rfl
  constructor
  · simp only [hsum, assignedOrdinal, Nat.zero_add]
  · simp only [hlen]
    omega

/-! ### Lemmas about the batch orchestrator -/

theorem procLen_le (abortAt : Option Nat) :
    ∀ (l : List (String × String)) (i : Nat), procLen abortAt i l ≤ l.length := by
  intro l
  induction l with
  | nil => intro i; simp [procLen]
  | cons p rest ih =>
    intro i
    by_cases h : abortAt = some i
    · simp [procLen, h]
    · simp only [procLen, h, if_false, List.length_cons]
      have := ih (i + 1)
      omega

theorem procLen_none :
    ∀ (l : List (String × String)) (i : Nat), procLen none i l = l.length := by
  intro l
  induction l with
  | nil => intro i; simp [procLen]
  | cons p rest ih => intro i; simp [procLen, ih (i + 1)]

theorem batchLoop_snd (driver : Nat → Session) (total : Nat) :
    ∀ (l : List (String × String)) (i : Nat),
      (batchLoop driver none total i l).2 = Except.ok (rowsFrom driver i l) := by
  intro l
  induction l with
  | nil => intro i; simp [batchLoop, rowsFrom]
  | cons p rest ih =>
    intro i
    obtain ⟨k, s⟩ := p
    simp [batchLoop, rowsFrom, ih (i + 1), Except.map]

theorem rowsFrom_length (driver : Nat → Session) :
    ∀ (l : List (String × String)) (i : Nat), (rowsFrom driver i l).length = l.length := by
  intro l
  induction l with
  | nil => intro i; simp [rowsFrom]
  | cons p rest ih =>
    intro i
    obtain ⟨k, s⟩ := p
    simp [rowsFrom, ih (i + 1)]

theorem rowsFrom_getElem? (driver : Nat → Session) :
    ∀ (l : List (String × String)) (i j : Nat),
      (rowsFrom driver i l)[j]? = (l[j]?).map
        (fun p => mkResultRow p.1 p.2 (search_single_business (driver (i + j)) p.1 p.2 50)) := by
  intro l
  induction l with
  | nil => intro i j; simp [rowsFrom]
  | cons p rest ih =>
    intro i j
    obtain ⟨k, s⟩ := p
    cases j with
    | zero => simp [rowsFrom]
    | succ j =>
      simp only [rowsFrom, List.getElem?_cons_succ]
      rw [ih (i + 1) j]
      have : i + 1 + j = i + (j + 1) := by omega
      rw [this]

theorem batchLoop_fracs (driver : Nat → Session) (abortAt : Option Nat) (total : Nat) :
    ∀ (l : List (String × String)) (i : Nat),
      (batchLoop driver abortAt total i l).1.filterMap progressValue =
        (List.range' i (procLen abortAt i l)).map fun n : Nat => (n : ℚ) / (total : ℚ) := by
  intro l
  induction l with
  | nil => intro i; simp [batchLoop, procLen]
  | cons p rest ih =>
    intro i
    obtain ⟨k, s⟩ := p
    by_cases h : abortAt = some i
    · simp [batchLoop, procLen, h]
    · simp only [batchLoop, procLen, h, if_false]
      simp only [List.filterMap_cons, progressValue]
      rw [ih (i + 1), List.range'_succ, List.map_cons]

theorem batchLoop_filter_isDispose (driver : Nat → Session) (abortAt : Option Nat) (total : Nat) :
    ∀ (l : List (String × String)) (i : Nat),
      (batchLoop driver abortAt total i l).1.filter isDispose = [] := by
  intro l
  induction l with
  | nil => intro i; simp [batchLoop]
  | cons p rest ih =>
    intro i
    obtain ⟨k, s⟩ := p
    by_cases h : abortAt = some i
    · simp [batchLoop, h]
    · simp only [batchLoop, h, if_false]
      simp [List.filter_cons, isDispose, ih (i + 1)]

theorem batchLoop_resolve_mem (driver : Nat → Session) (abortAt : Option Nat) (total : Nat) :
    ∀ (l : List (String × String)) (i n : Nat),
      Event.resolve n ∈ (batchLoop driver abortAt total i l).1 →
        i ≤ n ∧ n < i + procLen abortAt i l := by
  intro l
  induction l with
  | nil => intro i n h; simp [batchLoop] at h
  | cons p rest ih =>
    intro i n h
    obtain ⟨k, s⟩ := p
    by_cases hab : abortAt = some i
    · simp [batchLoop, hab] at h
    · simp only [batchLoop, hab, if_false, List.mem_cons] at h
      rcases h with h | h | h
      · exact absurd h (by simp)
      · have : n = i := by injection h
        simp only [procLen, hab, if_false]
        omega
      · have := ih (i + 1) n h
        simp only [procLen, hab, if_false]
        omega

theorem batchLoop_getElem_even (driver : Nat → Session) (abortAt : Option Nat) (total : Nat) :
    ∀ (l : List (String × String)) (i m : Nat), m < procLen abortAt i l →
      (batchLoop driver abortAt total i l).1[2 * m]? =
        some (Event.progress (((i + m : Nat) : ℚ) / (total : ℚ))) := by
  intro l
  induction l with
  | nil => intro i m h; simp [procLen] at h
  | cons p rest ih =>
    intro i m h
    obtain ⟨k, s⟩ := p
    by_cases hab : abortAt = some i
    · simp [procLen, hab] at h
    · simp only [procLen, hab, if_false] at h
      simp only [batchLoop, hab, if_false]
      cases m with
      | zero => simp
      | succ m =>
        have h2 : 2 * (m + 1) = 2 * m + 1 + 1 := by omega
        rw [h2]
        simp only [List.getElem?_cons_succ]
        rw [ih (i + 1) m (by omega)]
        have : i + 1 + m = i + (m + 1) := by omega
        rw [this]

theorem batchLoop_length (driver : Nat → Session) (abortAt : Option Nat) (total : Nat) :
    ∀ (l : List (String × String)) (i : Nat),
      (batchLoop driver abortAt total i l).1.length = 2 * procLen abortAt i l := by
  intro l
  induction l with
  | nil => intro i; simp [batchLoop, procLen]
  | cons p rest ih =>
    intro i
    obtain ⟨k, s⟩ := p
    by_cases hab : abortAt = some i
    · simp [batchLoop, procLen, hab]
    · simp only [batchLoop, procLen, hab, if_false, List.length_cons]
      rw [ih (i + 1)]
      omega

theorem search_multiple_rows (driver : Nat → Session) (keywords shop_names : List String) :
    ∃ rows, (search_multiple_businesses driver none keywords shop_names).2 = Except.ok rows ∧
      rows.length = (keywords.zip shop_names).length ∧
      ∀ j, rows[j]? = ((keywords.zip shop_names)[j]?).map
        (fun p => mkResultRow p.1 p.2 (search_single_business (driver j) p.1 p.2 50)) := by
  refine ⟨rowsFrom driver 0 (keywords.zip shop_names), ?_, ?_, ?_⟩
  · unfold search_multiple_businesses
    exact batchLoop_snd driver keywords.length (keywords.zip shop_names) 0
  · exact rowsFrom_length driver _ 0
  · intro j
    have := rowsFrom_getElem? driver (keywords.zip shop_names) 0 j
    simpa using this

/-! ### Claims -/

/-- C1: the claim states that whenever the Nth entry in document order is the
first non-sponsored exact match, `search_single_business` returns N regardless
of the scroll cycle in which the match is first seen.  This fails: the `rank`
counter is not reset between scroll cycles while the full feed is re-parsed
each cycle, so a match first seen in cycle 2 is double-counted.  In `sessGrow`
the feed is `[X]` in cycle 1 and `[X, A]` from cycle 2 on; entry "A" is the
2nd entry in document order and the first match, yet the code returns 3. -/
theorem rank_counter_not_reset_across_cycles :
    sessGrow.snapshot 1 = [entryX] ∧
    sessGrow.snapshot 2 = [entryX, entryA] ∧
    entryMatches entryX "A" = false ∧
    entryMatches entryA "A" = true ∧
    search_single_business sessGrow "q" "A" 50 = 3 :=
  ⟨rfl, rfl, by decide, by decide, by decide⟩

/-- C2: the claim states that an entry present in cycle k at ordinal p is
assigned ordinal p again in cycle k+1.  This fails: entry `entryX` sits at
position 0 of both snapshots of `sessGrow`, and is assigned ordinal 1 in
cycle 1 but ordinal 2 in cycle 2, because the `rank` counter carries over
from the previous cycle instead of being recomputed from 1. -/
theorem ordinal_assignment_shifts_across_cycles :
    sessGrow.snapshot 1 = [entryX] ∧
    sessGrow.snapshot 2 = [entryX, entryA] ∧
    assignedOrdinal sessGrow "A" 1 0 = 1 ∧
    assignedOrdinal sessGrow "A" 2 0 = 2 :=
  ⟨rfl, rfl, by decide, by decide⟩

/-- C3: a sponsored entry is never returned as the match even when its name
text equals the target (if every organic entry fails the name comparison the
resolver returns -1 no matter what the sponsored entries contain); every
entry, sponsored or not, consumes one ordinal slot, so a first match at
0-based position j of a cycle is reported with ordinal `rank + j + 1`; and on
the feed `[Ad("A"), "A", "B"]` the target "A" resolves to 2. -/
theorem sponsored_entries_never_matched :
    (∀ (sess : Session) (keyword shop_name : String) (max_scrolls : Nat),
        (∀ c, ∀ e ∈ sess.snapshot c, e.isAd = false → nameTextMatches e shop_name = false) →
        search_single_business sess keyword shop_name max_scrolls = -1)
    ∧ (∀ (shop_name : String) (es : List Entry) (r j : Nat) (hj : j < es.length),
        (∀ i (hi : i < es.length), i < j → entryMatches es[i] shop_name = false) →
        entryMatches es[j] shop_name = true →
        (scanCycle shop_name es r).1 = some (r + j + 1))
    ∧ search_single_business sessAd "q" "A" 50 = 2 := by
  refine ⟨?_, ?_, by decide⟩
  · intro sess keyword shop_name max_scrolls hnm
    cases herr : sess.unexpectedError with
    | true => simp [search_single_business, herr]
    | false =>
      cases hif : sess.iframeLoads with
      | false => simp [search_single_business, scrollSearch, herr, hif]
      | true =>
        cases hcl : sess.containerLoads with
        | false => simp [search_single_business, scrollSearch, herr, hif, hcl]
        | true =>
          exact (search_single_business_no_match sess keyword shop_name max_scrolls herr hif hcl
            (fun c => entryMatches_of_organic shop_name _ (hnm c))).1
  · intro shop_name es r j hj hfirst hmatch
    rw [scanCycle_first_match shop_name es j r hj hfirst hmatch]

/-- Witness for C3 at concrete inputs: a feed of one sponsored entry whose
name text equals the target still resolves to -1, and a first match at
position 1 behind a sponsored entry is reported with ordinal 2. -/
theorem sponsored_entries_never_matched_witness :
    search_single_business sessAllAds "q" "A" 3 = -1 ∧
      (scanCycle "A" [entryAdA, entryA] 0).1 = some 2 := by
  constructor
  · exact sponsored_entries_never_matched.1 sessAllAds "q" "A" 3
      (fun c e he had => by
        simp only [sessAllAds] at he
        simp only [List.mem_singleton] at he
        subst he
        exact absurd had (by decide))
  · have := sponsored_entries_never_matched.2.1 "A" [entryAdA, entryA] 0 1 (by decide)
      (fun i hi hij => by
        have h0 : i = 0 := by omega
        subst h0
        simp only [List.getElem_cons_zero]
        decide)
      (by decide)
    simpa using this

/-- C4: on a feed with no matching non-sponsored entry (in any snapshot),
the resolver runs exactly `max_scrolls` snapshot-parse-scroll cycles and then
returns -1; no growth-stagnation early exit exists, so this includes static
feeds. -/
theorem no_match_exhausts_budget (sess : Session) (keyword shop_name : String)
    (max_scrolls : Nat)
    (herr : sess.unexpectedError = false) (hif : sess.iframeLoads = true)
    (hcl : sess.containerLoads = true)
    (hnm : ∀ c, ∀ e ∈ sess.snapshot c, e.isAd = false → nameTextMatches e shop_name = false) :
    search_single_business sess keyword shop_name max_scrolls = -1 ∧
      cyclesExecuted sess shop_name max_scrolls = max_scrolls :=
  search_single_business_no_match sess keyword shop_name max_scrolls herr hif hcl
    (fun c => entryMatches_of_organic shop_name _ (hnm c))

/-- Witness for C4: the spec scenario — target "Z", static two-entry feed,
budget 5 — returns -1 after exactly 5 cycles. -/
theorem no_match_exhausts_budget_witness :
    search_single_business sessStatic "q" "Z" 5 = -1 ∧ cyclesExecuted sessStatic "Z" 5 = 5 :=
  no_match_exhausts_budget sessStatic "q" "Z" 5 rfl rfl rfl
    (fun c e he had => by
      simp only [sessStatic, List.mem_cons, List.mem_singleton, List.not_mem_nil,
        or_false] at he
      rcases he with rfl | rfl <;> decide)

/-- C5: if the wait for the result container times out, the resolver returns
-1 without executing any scroll cycle, and the batch still produces its rows:
the failed pair's row is built from rank -1 and has the shape of every other
row. -/
theorem navigation_timeout_returns_notfound :
    (∀ (sess : Session) (keyword shop_name : String) (max_scrolls : Nat),
        sess.containerLoads = false →
        search_single_business sess keyword shop_name max_scrolls = -1 ∧
          cyclesExecuted sess shop_name max_scrolls = 0)
    ∧ (∀ (driver : Nat → Session) (keywords shop_names : List String) (i : Nat),
        (driver i).containerLoads = false →
        ∃ rows, (search_multiple_businesses driver none keywords shop_names).2 =
            Except.ok rows ∧
          rows.length = (keywords.zip shop_names).length ∧
          rows[i]? = ((keywords.zip shop_names)[i]?).map
            (fun p => mkResultRow p.1 p.2 (-1))) := by
  have hcore : ∀ (sess : Session) (keyword shop_name : String) (max_scrolls : Nat),
      sess.containerLoads = false →
      search_single_business sess keyword shop_name max_scrolls = -1 ∧
        cyclesExecuted sess shop_name max_scrolls = 0 := by
    intro sess keyword shop_name max_scrolls hcl
    unfold search_single_business cyclesExecuted scrollSearch
    rw [hcl]
    cases sess.unexpectedError <;> cases sess.iframeLoads <;> simp
  refine ⟨hcore, ?_⟩
  intro driver keywords shop_names i hcl
  obtain ⟨rows, h1, h2, h3⟩ := search_multiple_rows driver keywords shop_names
  refine ⟨rows, h1, h2, ?_⟩
  rw [h3 i]
  have hf : (fun p : String × String =>
        mkResultRow p.1 p.2 (search_single_business (driver i) p.1 p.2 50)) =
      (fun p : String × String => mkResultRow p.1 p.2 (-1)) := by
    funext p
    rw [(hcore (driver i) p.1 p.2 50 hcl).1]
  rw [hf]

/-- Witness for C5: a session whose container wait fails resolves to -1 with
zero cycles, and in a two-pair batch where pair 0 fails navigation, a row for
pair 0 is still produced with the not-found shape. -/
theorem navigation_timeout_returns_notfound_witness :
    (search_single_business sessNavFail "q" "A" 50 = -1 ∧
      cyclesExecuted sessNavFail "A" 50 = 0) ∧
    ∃ rows, (search_multiple_businesses (fun _ => sessNavFail) none ["q1", "q2"]
        ["A", "B"]).2 = Except.ok rows ∧
      rows.length = ((["q1", "q2"] : List String).zip (["A", "B"] : List String)).length ∧
      rows[0]? = (((["q1", "q2"] : List String).zip (["A", "B"] : List String))[0]?).map
        (fun p => mkResultRow p.1 p.2 (-1)) :=
  ⟨navigation_timeout_returns_notfound.1 sessNavFail "q" "A" 50 rfl,
   navigation_timeout_returns_notfound.2 (fun _ => sessNavFail) ["q1", "q2"] ["A", "B"] 0 rfl⟩

/-- C6: any exception raised during a pair's resolution is caught inside
`search_single_business` and mapped to -1, and the batch always produces
one row per zipped pair. -/
theorem exceptions_mapped_to_notfound :
    (∀ (sess : Session) (keyword shop_name : String) (max_scrolls : Nat),
        sess.unexpectedError = true →
        search_single_business sess keyword shop_name max_scrolls = -1)
    ∧ (∀ (driver : Nat → Session) (keywords shop_names : List String),
        ∃ rows, (search_multiple_businesses driver none keywords shop_names).2 =
            Except.ok rows ∧
          rows.length = (keywords.zip shop_names).length) := by
  constructor
  · intro sess keyword shop_name max_scrolls herr
    simp [search_single_business, herr]
  · intro driver keywords shop_names
    obtain ⟨rows, h1, h2, _⟩ := search_multiple_rows driver keywords shop_names
    exact ⟨rows, h1, h2⟩

/-- Witness for C6: a session that raises resolves to -1, and a batch over a
raising driver still yields one row per pair. -/
theorem exceptions_mapped_to_notfound_witness :
    search_single_business sessErr "q" "A" 50 = -1 ∧
    ∃ rows, (search_multiple_businesses (fun _ => sessErr) none ["q1", "q2"]
        ["A", "B"]).2 = Except.ok rows ∧
      rows.length = ((["q1", "q2"] : List String).zip (["A", "B"] : List String)).length :=
  ⟨exceptions_mapped_to_notfound.1 sessErr "q" "A" 50 rfl,
   exceptions_mapped_to_notfound.2 (fun _ => sessErr) ["q1", "q2"] ["A", "B"]⟩

/-- C7: for equal-length keyword and shop-name lists, the batch produces
exactly one row per input pair, in input order: the i-th row carries the i-th
keyword and the i-th shop name. -/
theorem batch_preserves_length_and_order (driver : Nat → Session)
    (keywords shop_names : List String) (hlen : keywords.length = shop_names.length) :
    ∃ rows, (search_multiple_businesses driver none keywords shop_names).2 =
        Except.ok rows ∧
      rows.length = keywords.length ∧
      ∀ (i : Nat) (k s : String), keywords[i]? = some k → shop_names[i]? = some s →
        ∃ row : ResultRow, rows[i]? = some row ∧ row.keyword = k ∧ row.shop_name = s := by
  obtain ⟨rows, h1, h2, h3⟩ := search_multiple_rows driver keywords shop_names
  refine ⟨rows, h1, ?_, ?_⟩
  · rw [h2, List.length_zip, hlen, Nat.min_self]
  · intro i k s hk hs
    have hz : (keywords.zip shop_names)[i]? = some ((k, s) : String × String) := by
      rw [List.getElem?_zip_eq_some]
      exact ⟨hk, hs⟩
    rw [h3 i, hz]
    exact ⟨mkResultRow k s (search_single_business (driver i) k s 50), rfl, rfl, rfl⟩

/-- Witness for C7: a concrete two-pair batch has two rows carrying the input
pairs in order. -/
theorem batch_preserves_length_and_order_witness :
    ∃ rows, (search_multiple_businesses (fun _ => sessStatic) none ["q1", "q2"]
        ["A", "Z"]).2 = Except.ok rows ∧
      rows.length = 2 ∧
      ∀ (i : Nat) (k s : String), (["q1", "q2"] : List String)[i]? = some k →
        (["A", "Z"] : List String)[i]? = some s →
        ∃ row : ResultRow, rows[i]? = some row ∧ row.keyword = k ∧ row.shop_name = s :=
  batch_preserves_length_and_order (fun _ => sessStatic) ["q1", "q2"] ["A", "Z"] rfl

/-- C8: across one batch run (normal or with an exception escaping the pair
loop) the reported progress fractions are monotonically non-decreasing, the
fraction 1 is reported exactly once and it is the last report (at
completion), and pair i's fraction i/total is reported at trace position 2*i,
when that pair is started. -/
theorem progress_fractions_monotone (driver : Nat → Session) (abortAt : Option Nat)
    (keywords shop_names : List String) :
    List.Chain' (· ≤ ·)
        ((search_multiple_businesses driver abortAt keywords shop_names).1.filterMap
          progressValue)
    ∧ (((search_multiple_businesses driver abortAt keywords shop_names).1.filterMap
          progressValue).filter (fun q : ℚ => q = 1)).length = 1
    ∧ ((search_multiple_businesses driver abortAt keywords shop_names).1.filterMap
          progressValue).getLast? = some 1
    ∧ ∀ i : Nat,
        Event.resolve i ∈ (search_multiple_businesses driver abortAt keywords shop_names).1 →
        (search_multiple_businesses driver abortAt keywords shop_names).1[2 * i]? =
          some (Event.progress ((i : ℚ) / (keywords.length : ℚ))) := by
  have htr : (search_multiple_businesses driver abortAt keywords shop_names).1 =
      (batchLoop driver abortAt keywords.length 0 (keywords.zip shop_names)).1 ++
        [Event.dispose, Event.progress 1] := rfl
  have hple : procLen abortAt 0 (keywords.zip shop_names) ≤ (keywords.zip shop_names).length :=
    procLen_le abortAt (keywords.zip shop_names) 0
  have hzlen : (keywords.zip shop_names).length ≤ keywords.length := by
    rw [List.length_zip]
    exact Nat.min_le_left _ _
  have hfr : (search_multiple_businesses driver abortAt keywords shop_names).1.filterMap
        progressValue =
      ((List.range' 0 (procLen abortAt 0 (keywords.zip shop_names))).map
        fun n : Nat => (n : ℚ) / (keywords.length : ℚ)) ++ [1] := by
    rw [htr, List.filterMap_append, batchLoop_fracs]
    simp [progressValue]
  have hmemA : ∀ x ∈ (List.range' 0 (procLen abortAt 0 (keywords.zip shop_names))).map
        fun n : Nat => (n : ℚ) / (keywords.length : ℚ),
      ∃ n : Nat, n < procLen abortAt 0 (keywords.zip shop_names) ∧
        x = (n : ℚ) / (keywords.length : ℚ) := by
    intro x hx
    obtain ⟨n, hn, rfl⟩ := List.mem_map.mp hx
    exact ⟨n, by simpa using (List.mem_range'_1.mp hn).2, rfl⟩
  have hlt1 : ∀ n : Nat, n < procLen abortAt 0 (keywords.zip shop_names) →
      (n : ℚ) / (keywords.length : ℚ) < 1 := by
    intro n hn
    have htot : 0 < (keywords.length : ℚ) := by
      have h1 : 0 < keywords.length := by omega
      exact_mod_cast h1
    rw [div_lt_one htot]
    exact_mod_cast (show n < keywords.length by omega)
  refine ⟨?_, ?_, ?_, ?_⟩
  · rw [hfr]
    refine List.Pairwise.chain' ?_
    rw [List.pairwise_append]
    refine ⟨?_, by simp, ?_⟩
    · refine List.Pairwise.map _ ?_ (List.pairwise_le_range' 0 _)
      intro a b hab
      by_cases h0 : (keywords.length : ℚ) = 0
      · simp [h0]
      · have h0' : 0 < (keywords.length : ℚ) :=
          lt_of_le_of_ne (Nat.cast_nonneg _) (Ne.symm h0)
        exact (div_le_div_iff_of_pos_right h0').mpr (by exact_mod_cast hab)
    · intro a ha b hb
      simp only [List.mem_singleton] at hb
      subst hb
      obtain ⟨n, hn, rfl⟩ := hmemA a ha
      exact le_of_lt (hlt1 n hn)
  · rw [hfr, List.filter_append]
    have hfil : ((List.range' 0 (procLen abortAt 0 (keywords.zip shop_names))).map
        (fun n : Nat => (n : ℚ) / (keywords.length : ℚ))).filter (fun q : ℚ => q = 1) = [] := by
      rw [List.filter_eq_nil_iff]
      intro a ha
      obtain ⟨n, hn, rfl⟩ := hmemA a ha
      simp only [decide_eq_true_eq]
      exact ne_of_lt (hlt1 n hn)
    rw [hfil]
    simp
  · rw [hfr]
    exact List.getLast?_concat _
  · intro i hi
    rw [htr] at hi ⊢
    have hibody : Event.resolve i ∈
        (batchLoop driver abortAt keywords.length 0 (keywords.zip shop_names)).1 := by
      rcases List.mem_append.mp hi with h | h
      · exact h
      · simp at h
    have hip : i < procLen abortAt 0 (keywords.zip shop_names) := by
      have := batchLoop_resolve_mem driver abortAt keywords.length
        (keywords.zip shop_names) 0 i hibody
      omega
    have hlen2 : 2 * i <
        (batchLoop driver abortAt keywords.length 0 (keywords.zip shop_names)).1.length := by
      rw [batchLoop_length]
      omega
    rw [List.getElem?_append_left hlen2]
    have := batchLoop_getElem_even driver abortAt keywords.length
      (keywords.zip shop_names) 0 i hip
    simpa using this

/-- Witness for C8: in a one-pair batch, pair 0 is started and its fraction
0/1 is the first trace event. -/
theorem progress_fractions_monotone_witness :
    (search_multiple_businesses (fun _ => sessStatic) none ["q1"] ["A"]).1[2 * 0]? =
      some (Event.progress (((0 : Nat) : ℚ) / (((["q1"] : List String)).length : ℚ))) :=
  (progress_fractions_monotone (fun _ => sessStatic) none ["q1"] ["A"]).2.2.2 0 (by decide)

/-- C9: on every batch run — normal, with failing pairs, or with an exception
escaping the pair loop — the `finally` block runs `driver.quit()` exactly
once: the trace contains exactly one dispose event. -/
theorem session_disposed_exactly_once (driver : Nat → Session) (abortAt : Option Nat)
    (keywords shop_names : List String) :
    ((search_multiple_businesses driver abortAt keywords shop_names).1.filter
      isDispose).length = 1 := by
  have htr : (search_multiple_businesses driver abortAt keywords shop_names).1 =
      (batchLoop driver abortAt keywords.length 0 (keywords.zip shop_names)).1 ++
        [Event.dispose, Event.progress 1] := rfl
  rw [htr, List.filter_append, batchLoop_filter_isDispose]
  simp [isDispose]

/-- C10: the batch invokes the resolver with the default scroll budget of 50
for every pair: `search_multiple_businesses` takes no scroll-budget parameter,
and each produced row is exactly the row computed from
`search_single_business` at budget 50. -/
theorem batch_uses_default_scroll_budget (driver : Nat → Session)
    (keywords shop_names : List String) :
    ∃ rows, (search_multiple_businesses driver none keywords shop_names).2 =
        Except.ok rows ∧
      ∀ j : Nat, rows[j]? = ((keywords.zip shop_names)[j]?).map
        (fun p => mkResultRow p.1 p.2 (search_single_business (driver j) p.1 p.2 50)) := by
  obtain ⟨rows, h1, _, h3⟩ := search_multiple_rows driver keywords shop_names
  exact ⟨rows, h1, h3⟩
